import Mathlib

/-!
Verification development for the chess-board module (`chess_board.py`).

The module keeps two process-wide label tables `FILE` and `RANK` used by the
coordinate conversions `computerToAlgebraic` / `algebraicToComputer`; the
tables are replaced by `defineFILEandRANK` whenever a `Board` of non-default
dimensions is constructed.  We model the pair of tables as an explicit
`Tables` value threaded through the functions, Python `IndexError` /
`ValueError` as `Option.none`, and Python's `str(n)` as `Nat.repr`.
-/

/-- The 26 lowercase letters, `alpha` in `defineFILEandRANK`. -/
def pyAlpha : List Char := "abcdefghijklmnopqrstuvwxyz".data

/-- The process-wide `FILE` and `RANK` label tables of `chess_board.py`. -/
structure Tables where
  file : List String
  rank : List String
deriving DecidableEq

/-- The default `FILE = 'abcdefgh'` table, one entry per character. -/
def defaultFILE : List String := ["a", "b", "c", "d", "e", "f", "g", "h"]

/-- The default `RANK = '87654321'` table, one entry per character. -/
def defaultRANK : List String := ["8", "7", "6", "5", "4", "3", "2", "1"]

/-- The module-level state of `FILE` and `RANK` before any non-default
`Board` has been constructed. -/
def defaultTables : Tables := ⟨defaultFILE, defaultRANK⟩

/-- `defineFILEandRANK(files, ranks)` (lines 14-29): builds the file labels
`alpha[0..files)` and the rank labels `str(ranks-1), ..., str(0)` (the loop is
`for rank in reversed(range(0, ranks))`).  `alpha[file]` raises `IndexError`
for `files > 26`, modelled as `none`. -/
def defineFILEandRANK (files ranks : Nat) : Option (List String × List String) :=
  if files ≤ 26 then
    some ((pyAlpha.take files).map (fun c => String.mk [c]),
          ((List.range ranks).reverse).map (fun r => Nat.repr r))
  else none

/-- `computerToAlgebraic(file, rank)` (lines 47-59): `FILE[file] + RANK[rank]`.
An out-of-range index raises `IndexError`, modelled as `none`. -/
def computerToAlgebraic (t : Tables) (file rank : Nat) : Option String :=
  match t.file.get? file, t.rank.get? rank with
  | some f, some r => some (f ++ r)
  | _, _ => none

/-- `algebraicToComputer(coordinate)` (lines 32-44):
`(FILE.index(coordinate[0]), RANK.index(coordinate[1]))`.  A missing element
raises `ValueError` and a short string raises `IndexError`, both `none`. -/
def algebraicToComputer (t : Tables) (coordinate : String) : Option (Nat × Nat) :=
  match coordinate.data with
  | c0 :: c1 :: _ =>
    match t.file.findIdx? (fun x => x == String.mk [c0]),
          t.rank.findIdx? (fun x => x == String.mk [c1]) with
    | some f, some r => some (f, r)
    | _, _ => none
  | _ => none

/-- The effect of `Board.__init__` (lines 219-222) on the shared tables: any
dimension other than 8×8 replaces the global `FILE` and `RANK` with the result
of `defineFILEandRANK`. -/
def boardInitTables (t : Tables) (numFiles numRanks : Nat) : Option Tables :=
  if numFiles ≠ 8 ∨ numRanks ≠ 8 then
    (defineFILEandRANK numFiles numRanks).map (fun p => Tables.mk p.1 p.2)
  else some t

/-- Modelled from the spec: the rank labels §4.1 prescribes, counting down
from `str(numRanks)` to `"1"`. -/
def specRankLabels (ranks : Nat) : List String :=
  ((List.range ranks).reverse).map (fun r => Nat.repr (r + 1))

/-- Claim C1: for every file and rank in [0, 8) on a default 8×8 board,
converting the pair to algebraic notation and back returns the same pair. -/
theorem C1_roundtrip (file rank : Nat) (hf : file < 8) (hr : rank < 8) :
    (computerToAlgebraic defaultTables file rank).bind
      (algebraicToComputer defaultTables) = some (file, rank) := by
  have h : ∀ f < 8, ∀ r < 8,
      (computerToAlgebraic defaultTables f r).bind
        (algebraicToComputer defaultTables) = some (f, r) := by decide
  exact h file hf rank hr

/-- Witness for C1 at the concrete square (4, 3). -/
theorem C1_roundtrip_witness :
    (computerToAlgebraic defaultTables 4 3).bind
      (algebraicToComputer defaultTables) = some (4, 3) :=
  C1_roundtrip 4 3 (by decide) (by decide)

/-- Claim C7 (code bug, evaluated at the failing input `files = ranks = 8`):
the file labels are the first lowercase letters as claimed, but the generated
rank labels are `str(ranks-1), ..., "0"`, not `str(ranks), ..., "1"`; in
particular they disagree with the spec's labels and with the module's own
default table `RANK = '87654321'`. -/
theorem C7_rank_labels_off_by_one :
    (defineFILEandRANK 8 8).map Prod.fst =
      some ["a", "b", "c", "d", "e", "f", "g", "h"] ∧
    (defineFILEandRANK 8 8).map Prod.snd =
      some ["7", "6", "5", "4", "3", "2", "1", "0"] ∧
    (defineFILEandRANK 8 8).map Prod.snd ≠ some (specRankLabels 8) ∧
    specRankLabels 8 = defaultRANK := by decide

/-- Counterexample to claim C8 as stated: constructing a `Board(8, 9)` does
mutate the shared table (the new table differs from the default), yet the
coordinate-to-algebraic conversion still yields the standard labels at every
coordinate of a default 8×8 board, so the earlier board's notation is not
corrupted. -/
theorem C8_counterexample :
    boardInitTables defaultTables 8 9 ≠ some defaultTables ∧
    (boardInitTables defaultTables 8 9).map (fun t =>
      (List.range 8).all (fun f => (List.range 8).all (fun r =>
        computerToAlgebraic t f r == computerToAlgebraic defaultTables f r))) =
      some true := by decide

theorem toDigitsCore_length_ge (b : Nat) :
    ∀ (f n : Nat) (ds : List Char),
      ds.length ≤ (Nat.toDigitsCore b f n ds).length := by
  intro f
  induction f with
  | zero => intro n ds; simp [Nat.toDigitsCore]
  | succ f ih =>
    intro n ds
    simp only [Nat.toDigitsCore]
    by_cases h : n / b = 0
    · simp [h]
    · simp only [h, if_false]
      calc ds.length ≤ (Nat.digitChar (n % b) :: ds).length := by simp
        _ ≤ _ := ih (n / b) (Nat.digitChar (n % b) :: ds)

theorem toDigitsCore_length_succ_ge (b : Nat) :
    ∀ (f n : Nat) (ds : List Char), 1 ≤ f →
      ds.length + 1 ≤ (Nat.toDigitsCore b f n ds).length := by
  intro f
  cases f with
  | zero => intro n ds h; omega
  | succ f =>
    intro n ds _
    simp only [Nat.toDigitsCore]
    by_cases h : n / b = 0
    · simp [h]
    · simp only [h, if_false]
      have := toDigitsCore_length_ge b f (n / b) (Nat.digitChar (n % b) :: ds)
      simpa using this

theorem repr_length_two_le (m : Nat) (hm : 10 ≤ m) : 2 ≤ (Nat.repr m).length := by
  have hdiv : m / 10 ≠ 0 := by
    intro h
    have := Nat.div_eq_zero_iff (by omega : 0 < 10) |>.mp h
    omega
  have hm1 : m = (m - 1) + 1 := by omega
  unfold Nat.repr Nat.toDigits
  rw [String.length, List.asString]
  show 2 ≤ (Nat.toDigitsCore 10 (m + 1) m []).length
  rw [hm1]
  simp only [Nat.toDigitsCore]
  rw [← hm1]
  simp only [hdiv, if_false]
  have := toDigitsCore_length_succ_ge 10 (m - 1 + 1) (m / 10)
      [Nat.digitChar (m % 10)] (by omega)
  simpa using this

/-- `str(m) == "8"` forces `m = 8`: the decimal representation is faithful. -/
theorem repr_eq_eight (m : Nat) (h : Nat.repr m = "8") : m = 8 := by
  by_cases hm : m < 10
  · exact (by decide : ∀ m < 10, Nat.repr m = "8" → m = 8) m hm h
  · exfalso
    have h2 := repr_length_two_le m (by omega)
    rw [h] at h2
    exact absurd h2 (by decide)

/-- Claim C8 (amended): constructing a `Board` of any dimension other than
8×8 replaces the shared table, and whenever `numRanks ≠ 9` the conversion of
coordinate (0, 0) under the new table no longer yields the standard label
"a8" (for `numRanks = 9` the labels of all default-board coordinates are
unchanged, see the counterexample). -/
theorem C8_shared_table_corruption (numFiles numRanks : Nat)
    (hne : ¬(numFiles = 8 ∧ numRanks = 8)) (h9 : numRanks ≠ 9) (t : Tables)
    (ht : boardInitTables defaultTables numFiles numRanks = some t) :
    computerToAlgebraic t 0 0 ≠ some "a8" := by
  have hcond : numFiles ≠ 8 ∨ numRanks ≠ 8 := by tauto
  rw [boardInitTables, if_pos hcond] at ht
  rcases hle : defineFILEandRANK numFiles numRanks with _ | p
  · rw [hle] at ht; simp at ht
  · rw [hle] at ht
    simp only [Option.map_some'] at ht
    rw [defineFILEandRANK] at hle
    by_cases h26 : numFiles ≤ 26
    · rw [if_pos h26] at hle
      cases hle
      cases ht
      cases hf : numFiles with
      | zero =>
        simp [computerToAlgebraic, pyAlpha]
      | succ k =>
        cases hr : numRanks with
        | zero =>
          simp [computerToAlgebraic]
        | succ j =>
          intro hcontra
          have hfile0 : ((pyAlpha.take (k + 1)).map
              (fun c => String.mk [c])).get? 0 = some "a" := by
            simp [pyAlpha]
          have hrank0 : (((List.range (j + 1)).reverse).map
              (fun r => Nat.repr r)).get? 0 = some (Nat.repr j) := by
            rw [List.range_succ, List.reverse_append]
            simp
          rw [computerToAlgebraic] at hcontra
          simp only [hf, hr, hfile0, hrank0] at hcontra
          have happ : "a" ++ Nat.repr j = "a8" := by
            simpa using hcontra
          have hdata : ('a' :: (Nat.repr j).data) = ['a', '8'] :=
            congrArg String.data happ
          have hj : Nat.repr j = "8" := by
            apply String.ext
            simpa using hdata
          have := repr_eq_eight j hj
          omega
    · rw [if_neg h26] at hle
      exact absurd hle (by simp)

/-- Witness for C8 (amended) at dimensions 10×10: the post-construction
table no longer sends (0, 0) to "a8". -/
theorem C8_shared_table_corruption_witness :
    computerToAlgebraic
      ⟨["a", "b", "c", "d", "e", "f", "g", "h", "i", "j"],
       ["9", "8", "7", "6", "5", "4", "3", "2", "1", "0"]⟩ 0 0 ≠ some "a8" :=
  C8_shared_table_corruption 10 10 (by decide) (by decide)
    ⟨["a", "b", "c", "d", "e", "f", "g", "h", "i", "j"],
     ["9", "8", "7", "6", "5", "4", "3", "2", "1", "0"]⟩ (by decide)

/-!
The board and piece model.  The `chess_pieces` module is not part of the
supplied sources; per §6 of the spec a piece exposes a type name, a color and
a mutable back-reference to its square.  Python compares piece objects by
identity, so each piece carries a distinct `pid`.  The mutable back-reference
lives in the `Board` state (`pieceSquare`), and a square's occupant in
`squarePiece`; `plist` models the `piece_lists` dictionary of dictionaries
(`Queen`/`Rook`/`Knight`/`Bishop`, each keyed by color).
-/

/-- Modelled from the spec: the Piece capability of the excluded
`chess_pieces` module — a type tag (`get_name`), a color (`get_color`) and
object identity (`pid`); its mutable `square` back-reference is stored in
`Board.pieceSquare`. -/
structure Piece where
  pid : Nat
  name : String
  color : String
deriving DecidableEq

/-- `name in self.piece_lists.keys()`: the four tracked piece types. -/
def isTracked (name : String) : Bool :=
  ["Queen", "Rook", "Knight", "Bishop"].contains name

/-- The mutable state of a `Board` object together with the occupancy state
of its `Square` objects and the back-references of the pieces on them. -/
structure Board where
  files : Nat
  ranks : Nat
  squarePiece : Nat → Nat → Option Piece
  pieceSquare : Piece → Option (Nat × Nat)
  pieces : List Piece
  plist : String → String → List Piece
  white_king : Option Piece
  black_king : Option Piece

/-- A freshly constructed `Board()` (default 8×8): every square empty, all
piece lists empty, king references `None`. -/
def Board.empty : Board :=
  { files := 8
    ranks := 8
    squarePiece := fun _ _ => none
    pieceSquare := fun _ => none
    pieces := []
    plist := fun _ _ => []
    white_king := none
    black_king := none }

/-- `Square.set_piece(piece)` (lines 163-169): stores the piece on the square
and sets the piece's back-reference to the square.  A previous occupant's
back-reference is not cleared. -/
def set_piece (b : Board) (file rank : Nat) (p : Piece) : Board :=
  { b with
    squarePiece := fun f r =>
      if f = file ∧ r = rank then some p else b.squarePiece f r
    pieceSquare := fun q => if q = p then some (file, rank) else b.pieceSquare q }

/-- `Square.remove_piece()` (lines 171-175): if the square is occupied, clears
the occupant's back-reference and the square's occupant; otherwise a no-op. -/
def remove_piece (b : Board) (file rank : Nat) : Board :=
  match b.squarePiece file rank with
  | none => b
  | some p =>
    { b with
      squarePiece := fun f r =>
        if f = file ∧ r = rank then none else b.squarePiece f r
      pieceSquare := fun q => if q = p then none else b.pieceSquare q }

/-- The pieces found by iterating `self.squares.flat` (file-major order, the
construction order of the numpy array) and keeping occupied squares. -/
def scanSquares (b : Board) : List Piece :=
  (((List.range b.files).flatMap fun f =>
      (List.range b.ranks).map fun r => (f, r))).filterMap
    fun fr => b.squarePiece fr.1 fr.2

/-- Python's `list(set(l))` on a list of pieces: one occurrence of each
element; the iteration order of a Python `set` is unspecified, so only
membership and cardinality of the result are meaningful. -/
def pyDedup (l : List Piece) : List Piece := l.dedup

/-- Python's `l.remove(x)`: deletes the first occurrence of `x`, raising
`ValueError` (modelled as `none`) when `x` is absent. -/
def pyRemove (l : List Piece) (p : Piece) : Option (List Piece) :=
  if p ∈ l then some (l.erase p) else none

/-- Pointwise update of the `piece_lists` table at one type/color key. -/
def updList (pl : String → String → List Piece) (n c : String)
    (v : List Piece) : String → String → List Piece :=
  fun n2 c2 => if n2 = n ∧ c2 = c then v else pl n2 c2

/-- One iteration of the `pieces_set` loop of `update_pieces` (lines 286-293):
append to `self.pieces`; if the type is tracked, append to its type/color list
and deduplicate that list. -/
def addPiece (b : Board) (p : Piece) : Board :=
  { b with
    pieces := b.pieces ++ [p]
    plist :=
      if isTracked p.name then
        updList b.plist p.name p.color (pyDedup (b.plist p.name p.color ++ [p]))
      else b.plist }

/-- One iteration of the `pieces_removed` loop of `update_pieces`
(lines 295-302): `self.pieces.remove(piece)`, and for a tracked type also
removal from (and deduplication of) its type/color list; `list.remove` raises
when the piece is absent. -/
def removePieceStep (b : Board) (p : Piece) : Option Board := do
  let ps ← pyRemove b.pieces p
  if isTracked p.name then
    let idx ← pyRemove (b.plist p.name p.color) p
    pure { b with pieces := ps
                  plist := updList b.plist p.name p.color (pyDedup idx) }
  else
    pure { b with pieces := ps }

/-- The full-scan population of `piece_lists` (lines 273-280): each scanned
piece of a tracked type is appended to its type/color list in scan order. -/
def scanIndex (pl : String → String → List Piece) (l : List Piece) :
    String → String → List Piece :=
  l.foldl
    (fun acc p =>
      if isTracked p.name then
        updList acc p.name p.color (acc p.name p.color ++ [p])
      else acc)
    pl

/-- `Board.update_pieces(pieces_set, pieces_removed)` (lines 264-304).
Full-scan mode when `self.pieces` is empty (the arguments are ignored);
otherwise incremental mode: the `pieces_set` loop, then the fallible
`pieces_removed` loop (both iterate the reversed argument), then the final
`self.pieces = list(set(self.pieces))`.  An uncaught `ValueError` is `none`. -/
def update_pieces (b : Board) (pieces_set pieces_removed : List Piece) :
    Option Board :=
  if b.pieces.isEmpty then
    some { b with
      pieces := pyDedup (b.pieces ++ scanSquares b)
      plist := scanIndex b.plist (scanSquares b) }
  else
    let b1 := pieces_set.reverse.foldl addPiece b
    do
      let b2 ← pieces_removed.reverse.foldlM removePieceStep b1
      pure { b2 with pieces := pyDedup b2.pieces }

/-- The number of pieces of a given type and color in the flat list. -/
def countPieces (b : Board) (n c : String) : Nat :=
  (b.pieces.filter fun p => p.name == n && p.color == c).length

/-- `str.lower()` on one character, restricted to ASCII (all selector strings
of interest are ASCII). -/
def pyLowerChar (c : Char) : Char :=
  if 'A' ≤ c ∧ c ≤ 'Z' then Char.ofNat (c.toNat + 32) else c

/-- `str.lower()` restricted to ASCII. -/
def pyLower (s : String) : String := String.mk (s.data.map pyLowerChar)

/-- `str.startswith(c)` for a one-character needle, the only shape the
scenario builders use. -/
def pyStartsWith (s : String) (c : Char) : Bool :=
  match s.data with
  | [] => false
  | c0 :: _ => c0 == c

/-- White pawn objects `Pawn('white')` of `makeStandardBoard`, one per file. -/
def wPawn (f : Nat) : Piece := ⟨f, "Pawn", "white"⟩

/-- Black pawn objects `Pawn('black')` of `makeStandardBoard`. -/
def bPawn (f : Nat) : Piece := ⟨8 + f, "Pawn", "black"⟩

/-- White rook objects `Rook('white')` of `makeStandardBoard`. -/
def wRook (f : Nat) : Piece := ⟨16 + f, "Rook", "white"⟩

/-- Black rook objects `Rook('black')` of `makeStandardBoard`. -/
def bRook (f : Nat) : Piece := ⟨24 + f, "Rook", "black"⟩

/-- White knight objects of `makeStandardBoard`. -/
def wKnight (f : Nat) : Piece := ⟨32 + f, "Knight", "white"⟩

/-- Black knight objects of `makeStandardBoard`. -/
def bKnight (f : Nat) : Piece := ⟨40 + f, "Knight", "black"⟩

/-- White bishop objects of `makeStandardBoard`. -/
def wBishop (f : Nat) : Piece := ⟨48 + f, "Bishop", "white"⟩

/-- Black bishop objects of `makeStandardBoard`. -/
def bBishop (f : Nat) : Piece := ⟨56 + f, "Bishop", "black"⟩

/-- The white queen object of `makeStandardBoard`. -/
def wQueen : Piece := ⟨64, "Queen", "white"⟩

/-- The black queen object of `makeStandardBoard`. -/
def bQueen : Piece := ⟨65, "Queen", "black"⟩

/-- The `King('white')` object assigned to `board.white_king`. -/
def wKing : Piece := ⟨66, "King", "white"⟩

/-- The `King('black')` object assigned to `board.black_king`. -/
def bKing : Piece := ⟨67, "King", "black"⟩

/-- The board of `makeStandardBoard` (lines 311-345) just before its
`update_pieces()` call: all piece placements in source order and the two king
references. -/
def standardPlaced : Board :=
  let b := (List.range 8).foldl
    (fun b f => set_piece (set_piece b f 6 (wPawn f)) f 1 (bPawn f)) Board.empty
  let b := [0, 7].foldl
    (fun b f => set_piece (set_piece b f 7 (wRook f)) f 0 (bRook f)) b
  let b := [1, 6].foldl
    (fun b f => set_piece (set_piece b f 7 (wKnight f)) f 0 (bKnight f)) b
  let b := [2, 5].foldl
    (fun b f => set_piece (set_piece b f 7 (wBishop f)) f 0 (bBishop f)) b
  let b := set_piece b 3 7 wQueen
  let b := set_piece b 3 0 bQueen
  let b := set_piece { b with white_king := some wKing } 4 7 wKing
  let b := set_piece { b with black_king := some bKing } 4 0 bKing
  b

/-- `makeStandardBoard()` (lines 311-345). -/
def makeStandardBoard : Option Board := update_pieces standardPlaced [] []

/-- The board `makeStandardBoard()` returns (its `update_pieces()` call is in
full-scan mode and always succeeds). -/
def standardBoard : Board := makeStandardBoard.getD Board.empty

/-- The two `Rook(rookColor)` objects of `makeTwoRooksEndgameBoard`, indexed
by the file they are placed on. -/
def egRook (f : Nat) (c : String) : Piece := ⟨80 + f, "Rook", c⟩

/-- The two `Queen(queenColor)` objects of `makeQueenEndgameBoard`, indexed
by the file they are placed on. -/
def egQueen (f : Nat) (c : String) : Piece := ⟨90 + f, "Queen", c⟩

/-- The two-rooks endgame board before its `update_pieces()` call: rooks of
the resolved color on files 0 and 7 of the given back rank, plus both
kings. -/
def twoRooksPlaced (c : String) (rank : Nat) : Board :=
  let b := [0, 7].foldl (fun b f => set_piece b f rank (egRook f c)) Board.empty
  let b := set_piece { b with white_king := some wKing } 4 7 wKing
  let b := set_piece { b with black_king := some bKing } 4 0 bKing
  b

/-- `makeTwoRooksEndgameBoard(rookColor)` (lines 348-378): resolves the
selector case-insensitively by leading letter; any other selector prints an
error and returns `None`. -/
def makeTwoRooksEndgameBoard (rookColor : String) : Option Board :=
  if pyStartsWith (pyLower rookColor) 'w' then
    update_pieces (twoRooksPlaced "white" 7) [] []
  else if pyStartsWith (pyLower rookColor) 'b' then
    update_pieces (twoRooksPlaced "black" 0) [] []
  else none

/-- The queen endgame board before its `update_pieces()` call: queens of the
resolved color on files 0 and 7 of the given back rank (the loop
`for file in (0, 7)` places two queens), plus both kings. -/
def queenPlaced (c : String) (rank : Nat) : Board :=
  let b := [0, 7].foldl (fun b f => set_piece b f rank (egQueen f c)) Board.empty
  let b := set_piece { b with white_king := some wKing } 4 7 wKing
  let b := set_piece { b with black_king := some bKing } 4 0 bKing
  b

/-- `makeQueenEndgameBoard(queenColor)` (lines 380-410). -/
def makeQueenEndgameBoard (queenColor : String) : Option Board :=
  if pyStartsWith (pyLower queenColor) 'w' then
    update_pieces (queenPlaced "white" 7) [] []
  else if pyStartsWith (pyLower queenColor) 'b' then
    update_pieces (queenPlaced "black" 0) [] []
  else none

/-- The flat list of `l.foldl addPiece b` is `b.pieces` followed by `l`. -/
theorem addPiece_foldl_pieces (l : List Piece) (b : Board) :
    (l.foldl addPiece b).pieces = b.pieces ++ l := by
  induction l generalizing b with
  | nil => simp
  | cons p l ih =>
    simp only [List.foldl_cons, ih, addPiece, List.append_assoc,
      List.singleton_append]

/-- Claim C2: after `makeStandardBoard()` the flat piece list has exactly 32
members, `self.rooks['white']` has exactly 2 members, and the two king
references are non-null and distinct. -/
theorem C2_standard_board :
    makeStandardBoard.map (fun b =>
      (b.pieces.length, (b.plist "Rook" "white").length,
       b.white_king, b.black_king)) =
      some (32, 2, some wKing, some bKing) ∧ wKing ≠ bKing := by decide

/-- Claim C3: `set_piece` establishes the piece's back-reference to the
receiving square; `remove_piece` on an occupied square clears both the
occupant and the removed piece's back-reference, and is a no-op on an empty
square. -/
theorem C3_occupancy_link (b : Board) (file rank : Nat) (p : Piece) :
    (set_piece b file rank p).pieceSquare p = some (file, rank) ∧
    (∀ q, b.squarePiece file rank = some q →
      (remove_piece b file rank).squarePiece file rank = none ∧
      (remove_piece b file rank).pieceSquare q = none) ∧
    (b.squarePiece file rank = none → remove_piece b file rank = b) := by
  refine ⟨?_, ?_, ?_⟩
  · simp [set_piece]
  · intro q hq
    simp [remove_piece, hq]
  · intro h
    simp [remove_piece, h]

/-- Witness for C3 on the empty board and the square (0, 0) with `wKing`. -/
theorem C3_occupancy_link_witness :
    (set_piece Board.empty 0 0 wKing).pieceSquare wKing = some (0, 0) ∧
    ((remove_piece (set_piece Board.empty 0 0 wKing) 0 0).squarePiece 0 0 =
        none ∧
      (remove_piece (set_piece Board.empty 0 0 wKing) 0 0).pieceSquare wKing =
        none) ∧
    remove_piece Board.empty 0 0 = Board.empty :=
  ⟨(C3_occupancy_link Board.empty 0 0 wKing).1,
   (C3_occupancy_link (set_piece Board.empty 0 0 wKing) 0 0 wKing).2.1 wKing
     (by decide),
   (C3_occupancy_link Board.empty 0 0 wKing).2.2 (by decide)⟩

/-- Counterexample to claim C4 as stated: with selector `"white"`,
`makeQueenEndgameBoard` does not produce one queen per color — it places two
white queens and no black queen. -/
theorem C4_counterexample :
    ¬ ((makeQueenEndgameBoard "white").map (fun b =>
        (countPieces b "Queen" "white", countPieces b "Queen" "black")) =
      some (1, 1)) := by decide

/-- Claim C4 (amended): for every valid selector, `makeQueenEndgameBoard`
yields a board with exactly one king per color and exactly two queens of the
selected color and none of the opposite color (4 pieces in total); any other
selector yields no board. -/
theorem C4_queen_endgame (s : String) :
    (pyStartsWith (pyLower s) 'w' = true →
      (makeQueenEndgameBoard s).map (fun b =>
        (countPieces b "Queen" "white", countPieces b "Queen" "black",
         countPieces b "King" "white", countPieces b "King" "black",
         b.pieces.length)) = some (2, 0, 1, 1, 4)) ∧
    (pyStartsWith (pyLower s) 'w' = false → pyStartsWith (pyLower s) 'b' = true →
      (makeQueenEndgameBoard s).map (fun b =>
        (countPieces b "Queen" "white", countPieces b "Queen" "black",
         countPieces b "King" "white", countPieces b "King" "black",
         b.pieces.length)) = some (0, 2, 1, 1, 4)) ∧
    (pyStartsWith (pyLower s) 'w' = false → pyStartsWith (pyLower s) 'b' = false →
      (makeQueenEndgameBoard s).isNone = true) := by
  refine ⟨?_, ?_, ?_⟩
  · intro hw
    simp only [makeQueenEndgameBoard, hw, if_true]
    decide
  · intro hw hb
    simp only [makeQueenEndgameBoard, hw, hb, if_true, Bool.false_eq_true,
      if_false]
    decide
  · intro hw hb
    simp only [makeQueenEndgameBoard, hw, hb, Bool.false_eq_true, if_false,
      Option.isNone_none]

/-- Witness for C4 (amended) at the selectors `"Black"` and `"purple"`. -/
theorem C4_queen_endgame_witness :
    (makeQueenEndgameBoard "Black").map (fun b =>
      (countPieces b "Queen" "white", countPieces b "Queen" "black",
       countPieces b "King" "white", countPieces b "King" "black",
       b.pieces.length)) = some (0, 2, 1, 1, 4) ∧
    (makeQueenEndgameBoard "purple").isNone = true :=
  ⟨(C4_queen_endgame "Black").2.1 (by decide) (by decide),
   (C4_queen_endgame "purple").2.2 (by decide) (by decide)⟩

/-- The observable outcome of removing one piece: the size of the flat list,
whether the piece is still in it, and whether it is still in its type/color
index entry. -/
def removalView (b : Board) (p : Piece) : Option (Nat × Bool × Bool) :=
  (update_pieces b [] [p]).map fun b2 =>
    (b2.pieces.length, decide (p ∈ b2.pieces),
     decide (p ∈ b2.plist p.name p.color))

/-- Claim C5: removing any piece of the standard board decreases the flat
list from 32 to 31 members, removes it from the flat list and from its
type/color index entry, and removing the same piece a second time fails (the
`ValueError` of `list.remove`, the spec's ConsistencyError). -/
theorem C5_removal (p : Piece) (hp : p ∈ standardBoard.pieces) :
    removalView standardBoard p = some (31, false, false) ∧
    ((update_pieces standardBoard [] [p]).bind fun b2 =>
      update_pieces b2 [] [p]).isNone = true := by
  have h : ∀ q ∈ standardBoard.pieces,
      removalView standardBoard q = some (31, false, false) ∧
      ((update_pieces standardBoard [] [q]).bind fun b2 =>
        update_pieces b2 [] [q]).isNone = true := by decide
  exact h p hp

/-- Witness for C5 at the white rook on file 0. -/
theorem C5_removal_witness :
    removalView standardBoard (wRook 0) = some (31, false, false) ∧
    ((update_pieces standardBoard [] [wRook 0]).bind fun b2 =>
      update_pieces b2 [] [wRook 0]).isNone = true :=
  C5_removal (wRook 0) (by decide)

/-- Counterexample to claim C6 as stated: a call with the white rook on file
0 in both the added and the removed list does not fail — `update_pieces`
returns a board. -/
theorem C6_counterexample :
    ¬ ((update_pieces standardBoard [wRook 0] [wRook 0]).isNone = true) := by
  decide

/-- Claim C6 (amended): a piece appearing in both lists is not rejected; the
lists are processed (append first, then remove), leaving the piece still in
the flat list (size unchanged at 32) but deleted from its type/color index
entry, so the overlap silently corrupts the indexes instead of reporting a
configuration error. -/
theorem C6_overlap_processed (p : Piece) (hp : p ∈ standardBoard.pieces) :
    (update_pieces standardBoard [p] [p]).map (fun b2 =>
      (b2.pieces.length, decide (p ∈ b2.pieces),
       decide (p ∈ b2.plist p.name p.color))) = some (32, true, false) := by
  have h : ∀ q ∈ standardBoard.pieces,
      (update_pieces standardBoard [q] [q]).map (fun b2 =>
        (b2.pieces.length, decide (q ∈ b2.pieces),
         decide (q ∈ b2.plist q.name q.color))) = some (32, true, false) := by
    decide
  exact h p hp

/-- Witness for C6 (amended) at the white queen. -/
theorem C6_overlap_processed_witness :
    (update_pieces standardBoard [wQueen] [wQueen]).map (fun b2 =>
      (b2.pieces.length, decide (wQueen ∈ b2.pieces),
       decide (wQueen ∈ b2.plist wQueen.name wQueen.color))) =
      some (32, true, false) :=
  C6_overlap_processed wQueen (by decide)

/-- Claim C9: `makeTwoRooksEndgameBoard` matches its selector
case-insensitively by leading letter: `w` yields two white rooks, no black
rook and the two distinct kings; `b` the black version; anything else yields
no board. -/
theorem C9_two_rooks_endgame (s : String) :
    (pyStartsWith (pyLower s) 'w' = true →
      (makeTwoRooksEndgameBoard s).map (fun b =>
        ((countPieces b "Rook" "white", countPieces b "Rook" "black",
          countPieces b "King" "white", countPieces b "King" "black"),
         (b.pieces.length, b.white_king, b.black_king))) =
        some ((2, 0, 1, 1), (4, some wKing, some bKing))) ∧
    (pyStartsWith (pyLower s) 'w' = false → pyStartsWith (pyLower s) 'b' = true →
      (makeTwoRooksEndgameBoard s).map (fun b =>
        ((countPieces b "Rook" "white", countPieces b "Rook" "black",
          countPieces b "King" "white", countPieces b "King" "black"),
         (b.pieces.length, b.white_king, b.black_king))) =
        some ((0, 2, 1, 1), (4, some wKing, some bKing))) ∧
    (pyStartsWith (pyLower s) 'w' = false → pyStartsWith (pyLower s) 'b' = false →
      (makeTwoRooksEndgameBoard s).isNone = true) := by
  refine ⟨?_, ?_, ?_⟩
  · intro hw
    simp only [makeTwoRooksEndgameBoard, hw, if_true]
    decide
  · intro hw hb
    simp only [makeTwoRooksEndgameBoard, hw, hb, if_true, Bool.false_eq_true,
      if_false]
    decide
  · intro hw hb
    simp only [makeTwoRooksEndgameBoard, hw, hb, Bool.false_eq_true, if_false,
      Option.isNone_none]

/-- Witness for C9 at the selectors `"White"` and `"purple"`. -/
theorem C9_two_rooks_endgame_witness :
    (makeTwoRooksEndgameBoard "White").map (fun b =>
      ((countPieces b "Rook" "white", countPieces b "Rook" "black",
        countPieces b "King" "white", countPieces b "King" "black"),
       (b.pieces.length, b.white_king, b.black_king))) =
      some ((2, 0, 1, 1), (4, some wKing, some bKing)) ∧
    (makeTwoRooksEndgameBoard "purple").isNone = true :=
  ⟨(C9_two_rooks_endgame "White").1 (by decide),
   (C9_two_rooks_endgame "purple").2.2 (by decide) (by decide)⟩

/-- Claim C10: `update_pieces` selects full-scan mode exactly when the flat
list is empty at call time; in that mode both arguments are ignored and the
lists are rebuilt by scanning the squares, so pieces passed in `pieces_set`
are not inserted unless a square holds them; when the flat list is non-empty
the incremental mode does use `pieces_set`. -/
theorem C10_full_scan_mode (b : Board) (ps pr : List Piece) :
    (b.pieces = [] →
      update_pieces b ps pr = update_pieces b [] [] ∧
      (update_pieces b ps pr).map Board.pieces =
        some (pyDedup (scanSquares b)) ∧
      ∀ p ∈ ps, p ∉ scanSquares b →
        ∀ b2, update_pieces b ps pr = some b2 → p ∉ b2.pieces) ∧
    (b.pieces ≠ [] →
      (update_pieces b ps []).map Board.pieces =
        some (pyDedup (b.pieces ++ ps.reverse))) := by
  constructor
  · intro h
    have hemp : b.pieces.isEmpty = true := by simp [h]
    refine ⟨?_, ?_, ?_⟩
    · simp [update_pieces, hemp]
    · simp [update_pieces, hemp, h]
    · intro p hps hpn b2 hb2
      rw [update_pieces, if_pos hemp] at hb2
      have hb2p : b2.pieces = pyDedup (b.pieces ++ scanSquares b) := by
        cases hb2
        rfl
      rw [hb2p, h]
      simpa [pyDedup] using hpn
  · intro h
    have hemp : b.pieces.isEmpty = false := by
      cases hbp : b.pieces with
      | nil => exact absurd hbp h
      | cons hd tl => simp
    rw [update_pieces, if_neg (by simp [hemp])]
    show some (pyDedup ((ps.reverse.foldl addPiece b).pieces)) =
      some (pyDedup (b.pieces ++ ps.reverse))
    rw [addPiece_foldl_pieces]

/-- Witness for C10: on the empty board a call with a non-empty `pieces_set`
coincides with the argument-free call and rebuilds from the (empty) squares;
on the standard board (non-empty flat list) the same argument is inserted. -/
theorem C10_full_scan_mode_witness :
    (update_pieces Board.empty [wKing] [] = update_pieces Board.empty [] [] ∧
      (update_pieces Board.empty [wKing] []).map Board.pieces =
        some (pyDedup (scanSquares Board.empty))) ∧
    (update_pieces standardBoard [egRook 0 "white"] []).map Board.pieces =
      some (pyDedup (standardBoard.pieces ++ [egRook 0 "white"])) :=
  ⟨⟨((C10_full_scan_mode Board.empty [wKing] []).1 rfl).1,
    ((C10_full_scan_mode Board.empty [wKing] []).1 rfl).2.1⟩,
   (C10_full_scan_mode standardBoard [egRook 0 "white"] []).2 (by decide)⟩
